import Mathlib

/-!
# wechatgpt: the chat-completion client `openai.Completions`

A shallow embedding of `src/openai/chatgpt.go`.

* Go strings are modelled by `String` (sequences of runes); the string helpers of the Go
  standard library that the function calls (`strings.ToLower`, `strings.TrimSpace`, `len`)
  are written as functions on the rune list.
* The package-level variable `messages` is passed in and returned explicitly.
* The network is an oracle `net` mapping the request handed to `client.Do` to what came back;
  the requests issued are recorded in the result.
* `json.Unmarshal` is modelled on parsed JSON values, following the decoding rules of
  `encoding/json` for the two destination types of the file.
* A run-time panic (the unchecked type assertion at the end of the function) is the outcome
  `Outcome.abort`.
-/

namespace openai

/-! ## Strings -/

/-- The rune-wise lower-casing used by `strings.ToLower`. Besides the ASCII capitals, the only
runes whose lower case is an ASCII letter are U+0130 (to `i`) and U+212A (to `k`); every other
non-ASCII rune has a non-ASCII image, which is immaterial for a comparison with an ASCII
string, so those runes are left in place here. -/
def toLowerRune (c : Char) : Char :=
  if 65 ≤ c.toNat ∧ c.toNat ≤ 90 then Char.ofNat (c.toNat + 32)
  else if c.toNat = 0x130 then 'i'
  else if c.toNat = 0x212A then 'k'
  else c

/-- Go `strings.ToLower`. -/
def ToLower (s : String) : String := ⟨s.data.map toLowerRune⟩

/-- Go `unicode.IsSpace`: the runes with the Unicode White_Space property. -/
def isSpace (c : Char) : Bool :=
  let n := c.toNat
  (9 ≤ n && n ≤ 13) || n == 0x20 || n == 0x85 || n == 0xA0 || n == 0x1680 ||
  (0x2000 ≤ n && n ≤ 0x200A) || n == 0x2028 || n == 0x2029 || n == 0x202F ||
  n == 0x205F || n == 0x3000

/-- Leading and trailing white space removed from a rune list. -/
def trimRunes (l : List Char) : List Char := (l.dropWhile isSpace).rdropWhile isSpace

/-- Go `strings.TrimSpace`. -/
def TrimSpace (s : String) : String := ⟨trimRunes s.data⟩

/-- Go `len(s)`: the number of bytes of the UTF-8 encoding. -/
def len (s : String) : Nat := s.utf8ByteSize

/-! ## JSON values and Go dynamic values -/

/-- What the decoder needs to know of a JSON number literal: its value under
`strconv.ParseInt(lit, 10, 64)` when that succeeds, and whether `strconv.ParseFloat(lit, 64)`
succeeds. -/
structure Number where
  asInt : Option Int
  asFloat : Bool
  deriving DecidableEq, Repr

/-- A parsed JSON text. Object members keep their order and may repeat a key. -/
inductive JSON where
  | null
  | bool (b : Bool)
  | num (n : Number)
  | str (s : String)
  | arr (xs : List JSON)
  | obj (ms : List (String × JSON))

/-- A Go value of type `interface{}` as produced by the decoder. -/
inductive Any where
  | nil
  | bool (b : Bool)
  | float64 (n : Number)
  | string (s : String)
  | slice (xs : List Any)
  | map (m : List (String × Any))

/-- A Go `map[string]interface{}`: `none` is the nil map, `some m` holds the entries,
where a later entry for a key replaces an earlier one. -/
abbrev AnyMap := Option (List (String × Any))

/-- Map assignment `m[k] = v` on the entry list. -/
def setEntry (m : List (String × Any)) (k : String) (v : Any) : List (String × Any) :=
  m.filter (fun e => e.1 != k) ++ [(k, v)]

/-- Map index `m[k]`; a missing key and the nil map give the nil interface value. -/
def AnyMap.index (m : AnyMap) (k : String) : Any :=
  match m with
  | none => Any.nil
  | some es =>
    match es.find? (fun e => e.1 == k) with
    | some e => e.2
    | none => Any.nil

mutual
/-- Decoding a JSON value into an empty `interface{}`. Fails (`none`) when a number literal
is not representable as `float64`. -/
def toAny : JSON → Option Any
  | JSON.null => some Any.nil
  | JSON.bool b => some (Any.bool b)
  | JSON.num n => if n.asFloat then some (Any.float64 n) else none
  | JSON.str s => some (Any.string s)
  | JSON.arr xs => (toAnyList xs).map Any.slice
  | JSON.obj ms => (toAnyMembers ms []).map Any.map
/-- The elements of an array, in order. -/
def toAnyList : List JSON → Option (List Any)
  | [] => some []
  | x :: xs =>
    match toAny x, toAnyList xs with
    | some a, some as => some (a :: as)
    | _, _ => none
/-- The members of an object stored into the map `acc`, in order. -/
def toAnyMembers : List (String × JSON) → List (String × Any) → Option (List (String × Any))
  | [], acc => some acc
  | (k, v) :: ms, acc =>
    match toAny v with
    | some a => toAnyMembers ms (setEntry acc k a)
    | none => none
end

/-! ## The data shapes of the file -/

/-- One turn of the conversation. -/
structure STMessage where
  Role : String
  Content : String
  deriving DecidableEq, Repr

/-- One candidate completion of a response. -/
structure Choice where
  Index : Int
  Message : STMessage
  FinishReason : String
  deriving DecidableEq, Repr

/-- The response payload. -/
structure ChatGPTResponseBody where
  ID : String
  Object : String
  Created : Int
  Choices : List Choice
  Usage : AnyMap

/-- The error payload. -/
structure ChatGPTErrorBody where
  Error : AnyMap

/-- The request payload. -/
structure ChatGPTRequestBody where
  Model : String
  Messages : List STMessage
  deriving DecidableEq, Repr

/-! ## `json.Unmarshal` into the two destination types

Every decoder takes the JSON value and the current content of the destination and gives the
new content, or `none` when the library records an `UnmarshalTypeError`. The library goes on
decoding after such an error and reports it at the end; since `Completions` discards the
destination whenever an error is reported, only the presence of an error is modelled. -/

/-- The representative of a rune under simple case folding, as used to match object keys
with field names. Only the fold classes of ASCII letters matter for the ASCII field names of
this file: besides the two ASCII cases they hold U+017F (with `s`) and U+212A (with `k`). -/
def foldRune (c : Char) : Char :=
  if 97 ≤ c.toNat ∧ c.toNat ≤ 122 then Char.ofNat (c.toNat - 32)
  else if c.toNat = 0x17F then 'S'
  else if c.toNat = 0x212A then 'K'
  else c

/-- Does the object key `k` select the struct field tagged `name`? -/
def keyIs (k name : String) : Bool := k.data.map foldRune == name.data.map foldRune

/-- Into a `string`: a JSON string is stored, `null` has no effect. -/
def decodeString (j : JSON) (old : String) : Option String :=
  match j with
  | JSON.str s => some s
  | JSON.null => some old
  | _ => none

/-- Into an `int` (64 bits wide): an integer literal in range is stored, `null` has no
effect. -/
def decodeInt (j : JSON) (old : Int) : Option Int :=
  match j with
  | JSON.num n =>
    match n.asInt with
    | some i => if -(2 : Int) ^ 63 ≤ i ∧ i < (2 : Int) ^ 63 then some i else none
    | none => none
  | JSON.null => some old
  | _ => none

/-- Into a `map[string]interface{}`: the members of an object are stored into the existing
map (allocated when nil), `null` sets the map to nil. -/
def decodeAnyMap (j : JSON) (old : AnyMap) : Option AnyMap :=
  match j with
  | JSON.obj ms => (toAnyMembers ms (old.getD [])).map some
  | JSON.null => some none
  | _ => none

/-- The members of an object stored one after the other into a struct; `setField` handles
one member. -/
def decodeMembers {α : Type} (setField : α → String → JSON → Option α) :
    List (String × JSON) → α → Option α
  | [], a => some a
  | (k, v) :: ms, a =>
    match setField a k v with
    | some a1 => decodeMembers setField ms a1
    | none => none

/-- An object into a struct, `null` has no effect. -/
def decodeStruct {α : Type} (setField : α → String → JSON → Option α) (j : JSON) (old : α) :
    Option α :=
  match j with
  | JSON.obj ms => decodeMembers setField ms old
  | JSON.null => some old
  | _ => none

/-- One member of an object decoded into an `STMessage`; unknown keys are skipped. -/
def STMessage.setField (m : STMessage) (k : String) (v : JSON) : Option STMessage :=
  if keyIs k "role" then (decodeString v m.Role).map (fun s => { m with Role := s })
  else if keyIs k "content" then (decodeString v m.Content).map (fun s => { m with Content := s })
  else some m

/-- One member of an object decoded into a `Choice`. -/
def Choice.setField (c : Choice) (k : String) (v : JSON) : Option Choice :=
  if keyIs k "index" then (decodeInt v c.Index).map (fun i => { c with Index := i })
  else if keyIs k "message" then
    (decodeStruct STMessage.setField v c.Message).map (fun m => { c with Message := m })
  else if keyIs k "finish_reason" then
    (decodeString v c.FinishReason).map (fun s => { c with FinishReason := s })
  else some c

/-- The zero value of `Choice`. -/
def Choice.zero : Choice := ⟨0, ⟨"", ""⟩, ""⟩

/-- The elements of an array decoded into a slice: element `i` is decoded into the existing
element `i` when there is one and into a zero value otherwise. (Storage left beyond the
length of the slice by an earlier, longer occurrence of the same key is not modelled.) -/
def decodeElems : List JSON → List Choice → Option (List Choice)
  | [], _ => some []
  | x :: xs, old =>
    match decodeStruct Choice.setField x (old.headD Choice.zero), decodeElems xs old.tail with
    | some c, some cs => some (c :: cs)
    | _, _ => none

/-- Into a `[]Choice`: an array replaces the slice, `null` sets it to nil. -/
def decodeChoices (j : JSON) (old : List Choice) : Option (List Choice) :=
  match j with
  | JSON.arr xs => decodeElems xs old
  | JSON.null => some []
  | _ => none

/-- One member of an object decoded into a `ChatGPTResponseBody`. -/
def ChatGPTResponseBody.setField (r : ChatGPTResponseBody) (k : String) (v : JSON) :
    Option ChatGPTResponseBody :=
  if keyIs k "id" then (decodeString v r.ID).map (fun s => { r with ID := s })
  else if keyIs k "object" then (decodeString v r.Object).map (fun s => { r with Object := s })
  else if keyIs k "created" then (decodeInt v r.Created).map (fun i => { r with Created := i })
  else if keyIs k "choices" then
    (decodeChoices v r.Choices).map (fun cs => { r with Choices := cs })
  else if keyIs k "usage" then (decodeAnyMap v r.Usage).map (fun u => { r with Usage := u })
  else some r

/-- One member of an object decoded into a `ChatGPTErrorBody`. -/
def ChatGPTErrorBody.setField (e : ChatGPTErrorBody) (k : String) (v : JSON) :
    Option ChatGPTErrorBody :=
  if keyIs k "error" then (decodeAnyMap v e.Error).map (fun m => { e with Error := m })
  else some e

/-- A response body as read from the connection: bytes that are not a JSON text, or a JSON
text. -/
inductive Body where
  | malformed
  | value (j : JSON)

/-- The failures `Completions` can return. -/
inductive Err where
  | missingApiKey
  | connection (reason : String)
  | readBody (reason : String)
  | syntaxError
  | unmarshalType
  deriving DecidableEq, Repr

/-- The call `json.Unmarshal(body, gptResponseBody)` on the zero value
`&ChatGPTResponseBody{}`. -/
def unmarshalResponseBody (b : Body) : Except Err ChatGPTResponseBody :=
  match b with
  | Body.malformed => Except.error Err.syntaxError
  | Body.value j =>
    match decodeStruct ChatGPTResponseBody.setField j ⟨"", "", 0, [], none⟩ with
    | some r => Except.ok r
    | none => Except.error Err.unmarshalType

/-- The call `json.Unmarshal(body, gptErrorBody)` on the zero value `&ChatGPTErrorBody{}`. -/
def unmarshalErrorBody (b : Body) : Except Err ChatGPTErrorBody :=
  match b with
  | Body.malformed => Except.error Err.syntaxError
  | Body.value j =>
    match decodeStruct ChatGPTErrorBody.setField j ⟨none⟩ with
    | some e => Except.ok e
    | none => Except.error Err.unmarshalType

/-! ## `Completions` -/

/-- The request handed to `client.Do`; `Payload` is the value that is marshalled into the
request body. -/
structure Request where
  Method : String
  URL : String
  ContentType : String
  Authorization : String
  Payload : ChatGPTRequestBody
  deriving DecidableEq, Repr

/-- What came back for a request: `client.Do` failed, reading the body failed, or the body
was read. -/
inductive Transport where
  | doError (reason : String)
  | readError (reason : String)
  | body (b : Body)

/-- How a call ends: `(&reply, nil)`, `(nil, err)`, or a run-time panic. -/
inductive Outcome where
  | reply (s : String)
  | failure (e : Err)
  | abort
  deriving DecidableEq, Repr

/-- The observable result of a call: how it ended, the value of the package variable
`messages` afterwards, and the requests handed to `client.Do`, in order. -/
structure Result where
  outcome : Outcome
  messages : List STMessage
  requests : List Request
  deriving DecidableEq, Repr

/-- The confirmation returned for the reset command. -/
def strOK : String := "已清空上下文"

/-- The text returned in place of an empty completion. -/
def emptyReply : String := "【API返回了空内容。如果多次出现请清空上下文】"

/-- The loop over `gptResponseBody.Choices` (lines 130-141): the history and `reply` after
it. The loop body runs for the first choice only. -/
def firstChoice (messages : List STMessage) (choices : List Choice) :
    List STMessage × String :=
  match choices with
  | [] => (messages, "")
  | v :: _ =>
    let message := v.Message
    let reply := TrimSpace message.Content
    (messages ++ [message], if reply = "" then emptyReply else reply)

/-- The request built in lines 87-105: a POST to the chat-completions endpoint carrying the
model name and the history, with the JSON content type and the bearer token. -/
def newRequest (key : String) (messages : List STMessage) : Request :=
  let requestBody : ChatGPTRequestBody := ⟨"gpt-3.5-turbo", messages⟩
  ⟨"POST", "https://api.openai.com/v1/chat/completions", "application/json",
    "Bearer " ++ key, requestBody⟩

/-- Lines 107-156 of `Completions`: what happens once the request `req` has been handed to
`client.Do` and `t` came back; `messages1` is the history with the user turn appended. -/
def afterRequest (req : Request) (messages1 : List STMessage) (t : Transport) : Result :=
  match t with
  | Transport.doError e => ⟨Outcome.failure (Err.connection e), messages1, [req]⟩
  | Transport.readError e => ⟨Outcome.failure (Err.readBody e), messages1, [req]⟩
  | Transport.body body =>
    match unmarshalResponseBody body with
    | Except.error e => ⟨Outcome.failure e, messages1, [req]⟩
    | Except.ok gptResponseBody =>
      let step := firstChoice messages1 gptResponseBody.Choices
      match unmarshalErrorBody body with
      | Except.error e => ⟨Outcome.failure e, step.1, [req]⟩
      | Except.ok gptErrorBody =>
        if len step.2 = 0 then
          match gptErrorBody.Error.index "message" with
          | Any.string s => ⟨Outcome.reply (TrimSpace s), step.1, [req]⟩
          | _ => ⟨Outcome.abort, step.1, [req]⟩
        else ⟨Outcome.reply (TrimSpace step.2), step.1, [req]⟩

/-- The function `Completions(msg)`. `apiKey` is the result of `config.GetOpenAiApiKey()`,
`net` the network, `messages` the package variable before the call. The two error returns
after `json.Marshal` and `http.NewRequest` are unreachable (a struct of strings always
marshals, the method and the URL are valid constants) and have no counterpart here. -/
def Completions (apiKey : Option String) (net : Request → Transport)
    (messages : List STMessage) (msg : String) : Result :=
  match apiKey with
  | none => ⟨Outcome.failure Err.missingApiKey, messages, []⟩
  | some key =>
    if ToLower msg = "/clear" then ⟨Outcome.reply strOK, [], []⟩
    else
      let messages1 := messages ++ [⟨"user", msg⟩]
      let req := newRequest key messages1
      afterRequest req messages1 (net req)

/-- One call of a sequence: the credential and the network at that moment, and the
message. -/
structure Call where
  apiKey : Option String
  net : Request → Transport
  msg : String

/-- The package variable `messages` after a sequence of calls. -/
def runCalls (cs : List Call) (messages : List STMessage) : List STMessage :=
  cs.foldl (fun h c => (Completions c.apiKey c.net h c.msg).messages) messages

/-! ## The HTTP client behind `client.Do`

`Completions` calls `client.Do` once, on the zero-valued `http.Client`. That client has no
`CheckRedirect`, so it follows redirects itself, and the request built by `http.NewRequest`
from a `*bytes.Buffer` can replay its body. The definitions below describe what the client
puts on the wire for one call of `client.Do`. Headers are left out. -/

/-- One request as the client puts it on the wire; `Payload` is `none` for a request
without body. -/
structure WireRequest where
  Method : String
  URL : String
  Payload : Option ChatGPTRequestBody
  deriving DecidableEq, Repr

/-- What the server side answers to one request on the wire: a redirect with status 301, 302
or 303 to `location`, a redirect with status 307 or 308 to `location`, or anything else
(`done t`, where `t` is what the caller of `client.Do` then observes). -/
inductive WireReply where
  | seeOther (location : String)
  | sameMethod (location : String)
  | done (t : Transport)

/-- The client's redirect loop, with `n` requests still allowed: a 307 or 308 answer makes it
send the same method and body to the new location, a 301, 302 or 303 answer makes it send a
GET without body, and it gives up with an error when the allowance is used up. The result is
what `client.Do` hands back and the requests put on the wire, in order. -/
def clientDo (server : WireRequest → WireReply) : Nat → WireRequest →
    Transport × List WireRequest
  | 0, _ => (Transport.doError "stopped after 10 redirects", [])
  | n + 1, w =>
    match server w with
    | WireReply.done t => (t, [w])
    | WireReply.sameMethod location =>
      let next := clientDo server n ⟨w.Method, location, w.Payload⟩
      (next.1, w :: next.2)
    | WireReply.seeOther location =>
      let next := clientDo server n ⟨"GET", location, none⟩
      (next.1, w :: next.2)

/-- The first request on the wire for a request handed to `client.Do`. -/
def toWire (req : Request) : WireRequest := ⟨req.Method, req.URL, some req.Payload⟩

/-- The network as `Completions` sees it when the default client (at most 10 requests per
call of `client.Do`) talks to `server`. -/
def viaClient (server : WireRequest → WireReply) : Request → Transport :=
  fun req => (clientDo server 10 (toWire req)).1

/-- The POST requests put on the wire during one call of `Completions`. -/
def postsOnWire (apiKey : Option String) (server : WireRequest → WireReply)
    (messages : List STMessage) (msg : String) : List WireRequest :=
  ((Completions apiKey (viaClient server) messages msg).requests.flatMap
    (fun req => (clientDo server 10 (toWire req)).2)).filter (fun w => w.Method == "POST")

/-! ## Sample bodies -/

/-- The body `{"choices":[{"message":{"role":"assistant","content":c}}]}`. -/
def bodyOneChoice (c : String) : Body :=
  Body.value (JSON.obj [("choices", JSON.arr [JSON.obj [("message",
    JSON.obj [("role", JSON.str "assistant"), ("content", JSON.str c)])]])])

/-- The body `{"error":{"message":m}}`. -/
def bodyError (m : String) : Body :=
  Body.value (JSON.obj [("error", JSON.obj [("message", JSON.str m)])])

/-- The body `{"choices":[{"message":{"role":"assistant","content":c}}],"error":"x"}`. -/
def bodyChoiceBadError (c : String) : Body :=
  Body.value (JSON.obj [("choices", JSON.arr [JSON.obj [("message",
    JSON.obj [("role", JSON.str "assistant"), ("content", JSON.str c)])]]),
    ("error", JSON.str "x")])

/-- The body `{"choices":[{"message":{"role":"assistant","content":c}}],"error":[]}`. -/
def bodyChoiceArrayError (c : String) : Body :=
  Body.value (JSON.obj [("choices", JSON.arr [JSON.obj [("message",
    JSON.obj [("role", JSON.str "assistant"), ("content", JSON.str c)])]]),
    ("error", JSON.arr [])])

/-- The body `{"choices":[{"message":{"role":"assistant","content":c}}],"error":true}`. -/
def bodyChoiceBoolError (c : String) : Body :=
  Body.value (JSON.obj [("choices", JSON.arr [JSON.obj [("message",
    JSON.obj [("role", JSON.str "assistant"), ("content", JSON.str c)])]]),
    ("error", JSON.bool true)])

/-- The body `{"error":{"message":m,"n":1e999}}`; the literal `1e999` is neither an integer
nor within the range of `float64`. -/
def bodyErrorHugeNumber (m : String) : Body :=
  Body.value (JSON.obj [("error", JSON.obj [("message", JSON.str m),
    ("n", JSON.num ⟨none, false⟩)])])

/-- The body `{"choices":[{"message":{"role":"user","content":c}}]}`. -/
def bodyUserRoleChoice (c : String) : Body :=
  Body.value (JSON.obj [("choices", JSON.arr [JSON.obj [("message",
    JSON.obj [("role", JSON.str "user"), ("content", JSON.str c)])]])])

/-- A server that answers the chat-completions endpoint with a 307 redirect to another host
and answers there with one choice "Hello". -/
def serverRedirect : WireRequest → WireReply := fun w =>
  if w.URL = "https://api.openai.com/v1/chat/completions" then
    WireReply.sameMethod "https://eu.api.openai.com/v1/chat/completions"
  else WireReply.done (Transport.body (bodyOneChoice "Hello"))

/-- A sample call: the provider answers with one choice "Hello". -/
def callHello : Call := ⟨some "k", fun _ => Transport.body (bodyOneChoice "Hello"), "hi"⟩

/-- A sample call: the connection fails. -/
def callOffline : Call := ⟨some "k", fun _ => Transport.doError "timeout", "again"⟩

/-! ## Auxiliary facts -/

theorem len_eq_zero_iff (s : String) : len s = 0 ↔ s = "" := by
  obtain ⟨l⟩ := s
  cases l with
  | nil => simp [len, String.utf8ByteSize, String.utf8ByteSize.go]
  | cons c cs =>
    have hc : 0 < c.utf8Size := Char.utf8Size_pos c
    constructor
    · intro h
      simp only [len, String.utf8ByteSize, String.utf8ByteSize.go] at h
      omega
    · intro h
      exact absurd (congrArg String.data h) (by simp)

theorem prefix_get_zero {a b : List Char} (h : a <+: b) (ha : 0 < a.length)
    (hb : 0 < b.length) : a.get ⟨0, ha⟩ = b.get ⟨0, hb⟩ := by
  obtain ⟨t, rfl⟩ := h
  cases a with
  | nil => simp at ha
  | cons x xs => rfl

theorem trimRunes_idem (l : List Char) : trimRunes (trimRunes l) = trimRunes l := by
  unfold trimRunes
  have hpre : (l.dropWhile isSpace).rdropWhile isSpace <+: l.dropWhile isSpace :=
    List.rdropWhile_prefix _ _
  have hdrop : (((l.dropWhile isSpace).rdropWhile isSpace).dropWhile isSpace)
      = (l.dropWhile isSpace).rdropWhile isSpace := by
    rw [List.dropWhile_eq_self_iff]
    intro hl
    obtain ⟨t, ht⟩ := hpre
    have hl2 : 0 < (l.dropWhile isSpace).length := by
      rw [← ht, List.length_append]; omega
    have h0 := List.dropWhile_get_zero_not isSpace l hl2
    rw [prefix_get_zero ⟨t, ht⟩ hl hl2]; exact h0
  rw [hdrop, List.rdropWhile_idempotent]

theorem TrimSpace_idem (s : String) : TrimSpace (TrimSpace s) = TrimSpace s := by
  simp [TrimSpace, trimRunes_idem]

theorem TrimSpace_emptyReply : TrimSpace emptyReply = emptyReply := by decide

theorem len_emptyReply : len emptyReply ≠ 0 := by decide

/-- After the loop over the choices, `reply` is empty exactly when there was no choice. -/
theorem firstChoice_nil (ms : List STMessage) : firstChoice ms [] = (ms, "") := rfl

theorem firstChoice_cons (ms : List STMessage) (c : Choice) (cs : List Choice) :
    firstChoice ms (c :: cs) = (ms ++ [c.Message],
      if TrimSpace c.Message.Content = "" then emptyReply else TrimSpace c.Message.Content) := rfl

theorem firstChoice_extend (ms : List STMessage) (cs : List Choice) :
    ∃ extra, extra.length ≤ 1 ∧ (firstChoice ms cs).1 = ms ++ extra := by
  cases cs with
  | nil => exact ⟨[], by simp, by simp [firstChoice]⟩
  | cons c cs => exact ⟨[c.Message], by simp, by simp [firstChoice]⟩

theorem Completions_of_message (key : String) (net : Request → Transport)
    (messages : List STMessage) (msg : String) (hmsg : ToLower msg ≠ "/clear") :
    Completions (some key) net messages msg
      = afterRequest (newRequest key (messages ++ [⟨"user", msg⟩]))
          (messages ++ [⟨"user", msg⟩])
          (net (newRequest key (messages ++ [⟨"user", msg⟩]))) := by
  unfold Completions
  exact if_neg hmsg

/-- Every non-reset call with a credential leaves the prior history followed by the user turn
and at most one more turn. -/
theorem Completions_messages_shape (key : String) (net : Request → Transport)
    (messages : List STMessage) (msg : String) (hmsg : ToLower msg ≠ "/clear") :
    ∃ extra, extra.length ≤ 1 ∧
      (Completions (some key) net messages msg).messages
        = messages ++ [⟨"user", msg⟩] ++ extra := by
  rw [Completions_of_message key net messages msg hmsg]
  cases net (newRequest key (messages ++ [⟨"user", msg⟩])) with
  | doError e => exact ⟨[], by simp, by simp [afterRequest]⟩
  | readError e => exact ⟨[], by simp, by simp [afterRequest]⟩
  | body b =>
    simp only [afterRequest]
    cases unmarshalResponseBody b with
    | error e => exact ⟨[], by simp, by simp⟩
    | ok r =>
      obtain ⟨extra, hlen, hextra⟩ := firstChoice_extend (messages ++ [⟨"user", msg⟩]) r.Choices
      refine ⟨extra, hlen, ?_⟩
      simp only
      cases unmarshalErrorBody b with
      | error e => simpa using hextra
      | ok eb =>
        simp only
        split
        · split <;> simpa using hextra
        · simpa using hextra

/-- Every non-reset call with a credential hands exactly one request to the client. -/
theorem Completions_requests (key : String) (net : Request → Transport)
    (messages : List STMessage) (msg : String) (hmsg : ToLower msg ≠ "/clear") :
    (Completions (some key) net messages msg).requests
      = [newRequest key (messages ++ [⟨"user", msg⟩])] := by
  rw [Completions_of_message key net messages msg hmsg]
  unfold afterRequest
  split
  · rfl
  · rfl
  · split
    · rfl
    · split
      · rfl
      · simp only
        split
        · split <;> rfl
        · rfl

/-- After a non-reset call with a credential the history is the prior history and the user
turn, followed either by nothing or by the message of the first decoded choice. -/
theorem Completions_messages_cases (key : String) (net : Request → Transport)
    (messages : List STMessage) (msg : String) (hmsg : ToLower msg ≠ "/clear") :
    (Completions (some key) net messages msg).messages = messages ++ [⟨"user", msg⟩] ∨
      ∃ body r c cs,
        net (newRequest key (messages ++ [⟨"user", msg⟩])) = Transport.body body ∧
        unmarshalResponseBody body = Except.ok r ∧ r.Choices = c :: cs ∧
        (Completions (some key) net messages msg).messages
          = messages ++ [⟨"user", msg⟩, c.Message] := by
  rw [Completions_of_message key net messages msg hmsg]
  cases hnet : net (newRequest key (messages ++ [⟨"user", msg⟩])) with
  | doError x => exact Or.inl rfl
  | readError x => exact Or.inl rfl
  | body b =>
    cases hr : unmarshalResponseBody b with
    | error x => exact Or.inl (by simp [afterRequest, hr])
    | ok r =>
      have hstep : (afterRequest (newRequest key (messages ++ [⟨"user", msg⟩]))
          (messages ++ [⟨"user", msg⟩]) (Transport.body b)).messages
          = (firstChoice (messages ++ [⟨"user", msg⟩]) r.Choices).1 := by
        simp only [afterRequest, hr]
        cases unmarshalErrorBody b with
        | error x => rfl
        | ok eb =>
          simp only
          split
          · split <;> rfl
          · rfl
      cases hc : r.Choices with
      | nil =>
        left
        rw [hstep, hc, firstChoice_nil]
      | cons c cs =>
        right
        refine ⟨b, r, c, cs, rfl, hr, hc, ?_⟩
        rw [hstep, hc, firstChoice_cons]
        simp

theorem Completions_messages_extend (apiKey : Option String) (net : Request → Transport)
    (messages : List STMessage) (msg : String) (hmsg : ToLower msg ≠ "/clear") :
    messages <+: (Completions apiKey net messages msg).messages := by
  cases apiKey with
  | none => simp [Completions]
  | some key =>
    obtain ⟨extra, _, h⟩ := Completions_messages_shape key net messages msg hmsg
    rw [h, List.append_assoc]
    exact List.prefix_append _ _

theorem runCalls_extend (cs : List Call) (messages : List STMessage)
    (hcs : ∀ c ∈ cs, ToLower c.msg ≠ "/clear") : messages <+: runCalls cs messages := by
  induction cs generalizing messages with
  | nil => simp [runCalls]
  | cons c cs ih =>
    have h1 := Completions_messages_extend c.apiKey c.net messages c.msg
      (hcs c (List.mem_cons_self _ _))
    have h2 := ih (Completions c.apiKey c.net messages c.msg).messages
      (fun d hd => hcs d (List.mem_cons_of_mem _ hd))
    simpa [runCalls] using h1.trans h2

theorem runCalls_append (cs1 cs2 : List Call) (messages : List STMessage) :
    runCalls (cs1 ++ cs2) messages = runCalls cs2 (runCalls cs1 messages) := by
  simp [runCalls, List.foldl_append]

/-! ## The claims -/

/-- C1, as stated, fails: the body
`{"choices":[{"message":{"role":"assistant","content":"Hello"}}],"error":"x"}` decodes as a
response with one choice whose content is "Hello", yet the call returns a failure, because
the later decoding of the same body as an error payload rejects the string under "error". -/
theorem Completions_choice_with_bad_error_fails :
    unmarshalResponseBody (bodyChoiceBadError "Hello")
        = Except.ok ⟨"", "", 0, [⟨0, ⟨"assistant", "Hello"⟩, ""⟩], none⟩ ∧
      TrimSpace "Hello" = "Hello" ∧
      (Completions (some "k") (fun _ => Transport.body (bodyChoiceBadError "Hello")) []
        "hi").outcome = Outcome.failure Err.unmarshalType := by
  refine ⟨rfl, by decide, by decide⟩

/-- C1 (amended): for a non-reset message with a credential, when the body decodes as a
response with a first choice whose trimmed content is not empty, and the body also decodes
as an error payload, `Completions` returns the trimmed content of the first choice, the
history is the prior history followed by the user turn and the first choice's message, and
one request was issued; later choices play no part. -/
theorem Completions_first_choice_reply (key : String) (net : Request → Transport)
    (messages : List STMessage) (msg : String) (body : Body) (r : ChatGPTResponseBody)
    (e : ChatGPTErrorBody) (c : Choice) (cs : List Choice)
    (hmsg : ToLower msg ≠ "/clear")
    (hnet : net (newRequest key (messages ++ [⟨"user", msg⟩])) = Transport.body body)
    (hr : unmarshalResponseBody body = Except.ok r) (hc : r.Choices = c :: cs)
    (he : unmarshalErrorBody body = Except.ok e)
    (hne : TrimSpace c.Message.Content ≠ "") :
    Completions (some key) net messages msg
      = ⟨Outcome.reply (TrimSpace c.Message.Content),
         messages ++ [⟨"user", msg⟩, c.Message],
         [newRequest key (messages ++ [⟨"user", msg⟩])]⟩ := by
  have hlen : len (TrimSpace c.Message.Content) ≠ 0 := fun h => hne ((len_eq_zero_iff _).mp h)
  rw [Completions_of_message key net messages msg hmsg, hnet]
  simp only [afterRequest, hr, he, hc, firstChoice_cons, if_neg hne, if_neg hlen,
    TrimSpace_idem, List.append_assoc, List.singleton_append]

/-- C1, witness: one choice with content "Hello" gives the reply "Hello" and the history
grows by the user turn and the assistant turn. -/
theorem Completions_first_choice_reply_witness :
    Completions (some "k") (fun _ => Transport.body (bodyOneChoice "Hello"))
        [⟨"user", "a"⟩, ⟨"assistant", "b"⟩] "hi"
      = ⟨Outcome.reply "Hello",
         [⟨"user", "a"⟩, ⟨"assistant", "b"⟩, ⟨"user", "hi"⟩, ⟨"assistant", "Hello"⟩],
         [newRequest "k" [⟨"user", "a"⟩, ⟨"assistant", "b"⟩, ⟨"user", "hi"⟩]]⟩ :=
  Completions_first_choice_reply "k" (fun _ => Transport.body (bodyOneChoice "Hello"))
    [⟨"user", "a"⟩, ⟨"assistant", "b"⟩] "hi" (bodyOneChoice "Hello")
    ⟨"", "", 0, [⟨0, ⟨"assistant", "Hello"⟩, ""⟩], none⟩ ⟨none⟩
    ⟨0, ⟨"assistant", "Hello"⟩, ""⟩ [] (by decide) rfl rfl rfl rfl (by decide)

/-- C2: with a credential, every message whose lower-cased form is "/clear" empties the
history, returns the fixed confirmation string as a reply and issues no request. -/
theorem Completions_clear (key : String) (net : Request → Transport)
    (messages : List STMessage) (msg : String) (hmsg : ToLower msg = "/clear") :
    Completions (some key) net messages msg = ⟨Outcome.reply "已清空上下文", [], []⟩ := by
  unfold Completions
  exact if_pos hmsg

/-- C2, witness: "/Clear" on a history of two turns. -/
theorem Completions_clear_witness :
    ToLower "/Clear" = "/clear" ∧
      Completions (some "k") (fun _ => Transport.body (bodyOneChoice "Hello"))
          [⟨"user", "a"⟩, ⟨"assistant", "b"⟩] "/Clear"
        = ⟨Outcome.reply "已清空上下文", [], []⟩ :=
  ⟨by decide, Completions_clear "k" (fun _ => Transport.body (bodyOneChoice "Hello"))
    [⟨"user", "a"⟩, ⟨"assistant", "b"⟩] "/Clear" (by decide)⟩

/-- C3: without a credential every call returns the missing-API-key failure and hands no
request to the network. -/
theorem Completions_no_key_fails (net : Request → Transport) (messages : List STMessage)
    (msg : String) :
    (Completions none net messages msg).outcome = Outcome.failure Err.missingApiKey ∧
      (Completions none net messages msg).requests = [] :=
  ⟨rfl, rfl⟩

/-- C4, as stated, fails twice. For the body `{"error":{"message":" rate limited "}}` the
message field is the string " rate limited " but the reply is "rate limited": the reply is
trimmed. For the body `{"error":{"message":"m","n":1e999}}`, which decodes as a response
with zero choices and whose error object has the message "m", the call returns a failure,
because decoding the body as an error payload rejects the number. -/
theorem Completions_error_message_is_trimmed :
    unmarshalResponseBody (bodyError " rate limited ")
        = Except.ok ⟨"", "", 0, [], none⟩ ∧
      unmarshalErrorBody (bodyError " rate limited ")
        = Except.ok ⟨some [("message", Any.string " rate limited ")]⟩ ∧
      (Completions (some "k") (fun _ => Transport.body (bodyError " rate limited ")) []
        "hi").outcome = Outcome.reply "rate limited" ∧
      (Completions (some "k") (fun _ => Transport.body (bodyError " rate limited ")) []
        "hi").outcome ≠ Outcome.reply " rate limited " ∧
      unmarshalResponseBody (bodyErrorHugeNumber "m") = Except.ok ⟨"", "", 0, [], none⟩ ∧
      (Completions (some "k") (fun _ => Transport.body (bodyErrorHugeNumber "m")) []
        "hi").outcome = Outcome.failure Err.unmarshalType := by
  refine ⟨rfl, rfl, by decide, by decide, rfl, by decide⟩

/-- C4 (amended): for a non-reset message with a credential, when the body decodes as a
response with zero choices, the same body also decodes as an error payload, and the message
field of that payload is a string `m`, `Completions` returns `m` with leading and trailing
white space removed, as a reply and not as a failure; the history is the prior history
followed by the user turn. -/
theorem Completions_error_message_reply (key : String) (net : Request → Transport)
    (messages : List STMessage) (msg : String) (body : Body) (r : ChatGPTResponseBody)
    (e : ChatGPTErrorBody) (m : String)
    (hmsg : ToLower msg ≠ "/clear")
    (hnet : net (newRequest key (messages ++ [⟨"user", msg⟩])) = Transport.body body)
    (hr : unmarshalResponseBody body = Except.ok r) (hc : r.Choices = [])
    (he : unmarshalErrorBody body = Except.ok e)
    (hm : e.Error.index "message" = Any.string m) :
    Completions (some key) net messages msg
      = ⟨Outcome.reply (TrimSpace m), messages ++ [⟨"user", msg⟩],
         [newRequest key (messages ++ [⟨"user", msg⟩])]⟩ := by
  have hlen : len "" = 0 := (len_eq_zero_iff _).mpr rfl
  rw [Completions_of_message key net messages msg hmsg, hnet]
  simp only [afterRequest, hr, he, hc, firstChoice_nil, hlen, if_true, hm]

/-- C4, witness: the body `{"error":{"message":"rate limited"}}` gives the reply
"rate limited". -/
theorem Completions_error_message_reply_witness :
    Completions (some "k") (fun _ => Transport.body (bodyError "rate limited")) [] "hi"
      = ⟨Outcome.reply "rate limited", [⟨"user", "hi"⟩], [newRequest "k" [⟨"user", "hi"⟩]]⟩ :=
  Completions_error_message_reply "k" (fun _ => Transport.body (bodyError "rate limited"))
    [] "hi" (bodyError "rate limited") ⟨"", "", 0, [], none⟩
    ⟨some [("message", Any.string "rate limited")]⟩ "rate limited"
    (by decide) rfl rfl rfl rfl rfl

/-- C5, as stated, fails: the body
`{"choices":[{"message":{"role":"assistant","content":" \n"}}],"error":[]}` has a first
choice with white-space-only content, yet the call returns a failure and not the
placeholder. -/
theorem Completions_blank_choice_with_bad_error_fails :
    unmarshalResponseBody (bodyChoiceArrayError " \n")
        = Except.ok ⟨"", "", 0, [⟨0, ⟨"assistant", " \n"⟩, ""⟩], none⟩ ∧
      TrimSpace " \n" = "" ∧
      (Completions (some "k") (fun _ => Transport.body (bodyChoiceArrayError " \n")) []
        "hi").outcome = Outcome.failure Err.unmarshalType := by
  refine ⟨rfl, by decide, by decide⟩

/-- C5 (amended): for a non-reset message with a credential, when the body decodes as a
response whose first choice has empty or white-space-only content, and the body also decodes
as an error payload, `Completions` returns the fixed placeholder text as a reply, while the
turn appended after the user turn is the first choice's message unchanged. -/
theorem Completions_blank_choice_reply (key : String) (net : Request → Transport)
    (messages : List STMessage) (msg : String) (body : Body) (r : ChatGPTResponseBody)
    (e : ChatGPTErrorBody) (c : Choice) (cs : List Choice)
    (hmsg : ToLower msg ≠ "/clear")
    (hnet : net (newRequest key (messages ++ [⟨"user", msg⟩])) = Transport.body body)
    (hr : unmarshalResponseBody body = Except.ok r) (hc : r.Choices = c :: cs)
    (he : unmarshalErrorBody body = Except.ok e)
    (hblank : TrimSpace c.Message.Content = "") :
    Completions (some key) net messages msg
      = ⟨Outcome.reply "【API返回了空内容。如果多次出现请清空上下文】",
         messages ++ [⟨"user", msg⟩, c.Message],
         [newRequest key (messages ++ [⟨"user", msg⟩])]⟩ := by
  rw [Completions_of_message key net messages msg hmsg, hnet]
  simp only [afterRequest, hr, he, hc, firstChoice_cons, hblank, if_true,
    if_neg len_emptyReply, TrimSpace_emptyReply, List.append_assoc, List.singleton_append]
  rfl

/-- C5, witness: a single choice with content " \n" gives the placeholder, and the history
keeps the content " \n". -/
theorem Completions_blank_choice_reply_witness :
    Completions (some "k") (fun _ => Transport.body (bodyOneChoice " \n")) [] "hi"
      = ⟨Outcome.reply "【API返回了空内容。如果多次出现请清空上下文】",
         [⟨"user", "hi"⟩, ⟨"assistant", " \n"⟩], [newRequest "k" [⟨"user", "hi"⟩]]⟩ :=
  Completions_blank_choice_reply "k" (fun _ => Transport.body (bodyOneChoice " \n"))
    [] "hi" (bodyOneChoice " \n") ⟨"", "", 0, [⟨0, ⟨"assistant", " \n"⟩, ""⟩], none⟩ ⟨none⟩
    ⟨0, ⟨"assistant", " \n"⟩, ""⟩ [] (by decide) rfl rfl rfl rfl (by decide)

/-- C6: on the bodies `{}`, `null`, `{"error":{}}` and `{"error":{"message":true}}`, which
all decode with zero choices, `Completions` ends in a run-time panic (the type assertion on
the message field fails): it yields neither a reply nor a failure. The user turn has been
appended by then. -/
theorem Completions_aborts_without_message :
    Completions (some "k") (fun _ => Transport.body (Body.value (JSON.obj []))) [] "hi"
        = ⟨Outcome.abort, [⟨"user", "hi"⟩], [newRequest "k" [⟨"user", "hi"⟩]]⟩ ∧
      (Completions (some "k") (fun _ => Transport.body (Body.value JSON.null)) []
        "hi").outcome = Outcome.abort ∧
      (Completions (some "k") (fun _ => Transport.body
        (Body.value (JSON.obj [("error", JSON.obj [])]))) [] "hi").outcome = Outcome.abort ∧
      (Completions (some "k") (fun _ => Transport.body
        (Body.value (JSON.obj [("error", JSON.obj [("message", JSON.bool true)])]))) []
        "hi").outcome = Outcome.abort := by
  refine ⟨by decide, by decide, by decide, by decide⟩

/-- C7, as stated, fails: on a history of two turns, the message "next" and the body
`{"choices":[{"message":{"role":"assistant","content":"Hi"}}],"error":true}`, the call
returns a failure and the history holds the user turn and also the choice's turn. -/
theorem Completions_failure_after_assistant_turn :
    Completions (some "k") (fun _ => Transport.body (bodyChoiceBoolError "Hi"))
        [⟨"user", "a"⟩, ⟨"assistant", "b"⟩] "next"
      = ⟨Outcome.failure Err.unmarshalType,
         [⟨"user", "a"⟩, ⟨"assistant", "b"⟩, ⟨"user", "next"⟩, ⟨"assistant", "Hi"⟩],
         [newRequest "k" [⟨"user", "a"⟩, ⟨"assistant", "b"⟩, ⟨"user", "next"⟩]]⟩ ∧
      (Completions (some "k") (fun _ => Transport.body (bodyChoiceBoolError "Hi"))
        [⟨"user", "a"⟩, ⟨"assistant", "b"⟩] "next").messages
        ≠ [⟨"user", "a"⟩, ⟨"assistant", "b"⟩] ++ [⟨"user", "next"⟩] := by
  refine ⟨by decide, by decide⟩

/-- C7 (amended): for a non-reset message with a credential, whenever `Completions` returns
a failure, either no choice was decoded (the connection failed, the body could not be read,
the response decoding rejected the body or gave zero choices) and the history is the prior
history followed by the single user turn, or the body decoded as a response with a first
choice, the failure comes from decoding the same body as an error payload, and the history
is the prior history followed by the user turn and that choice's message. The user turn is
never rolled back. -/
theorem Completions_failure_history (key : String) (net : Request → Transport)
    (messages : List STMessage) (msg : String) (e : Err)
    (hmsg : ToLower msg ≠ "/clear")
    (hfail : (Completions (some key) net messages msg).outcome = Outcome.failure e) :
    ((∀ body r, net (newRequest key (messages ++ [⟨"user", msg⟩])) = Transport.body body →
          unmarshalResponseBody body = Except.ok r → r.Choices = []) ∧
        (Completions (some key) net messages msg).messages = messages ++ [⟨"user", msg⟩]) ∨
      (∃ body r c cs, net (newRequest key (messages ++ [⟨"user", msg⟩])) = Transport.body body ∧
        unmarshalResponseBody body = Except.ok r ∧ r.Choices = c :: cs ∧
        unmarshalErrorBody body = Except.error e ∧
        (Completions (some key) net messages msg).messages
          = messages ++ [⟨"user", msg⟩, c.Message]) := by
  rw [Completions_of_message key net messages msg hmsg] at hfail ⊢
  cases hnet : net (newRequest key (messages ++ [⟨"user", msg⟩])) with
  | doError x =>
    left
    exact ⟨fun body r hb _ => (by cases hb), rfl⟩
  | readError x =>
    left
    exact ⟨fun body r hb _ => (by cases hb), rfl⟩
  | body b =>
    rw [hnet] at hfail
    cases hr : unmarshalResponseBody b with
    | error x =>
      left
      refine ⟨fun body r hb hr2 => ?_, by simp [afterRequest, hr]⟩
      cases hb
      rw [hr] at hr2
      cases hr2
    | ok r =>
      cases he : unmarshalErrorBody b with
      | ok eb =>
        exfalso
        simp only [afterRequest, hr, he] at hfail
        split at hfail
        · split at hfail <;> cases hfail
        · cases hfail
      | error x =>
        have hx : x = e := by
          simp only [afterRequest, hr, he] at hfail
          cases hfail
          rfl
        subst hx
        cases hc : r.Choices with
        | nil =>
          left
          refine ⟨fun body r2 hb hr2 => ?_, by simp [afterRequest, hr, he, hc, firstChoice]⟩
          cases hb
          rw [hr] at hr2
          cases hr2
          exact hc
        | cons c cs =>
          right
          exact ⟨b, r, c, cs, rfl, hr, hc, he, by simp [afterRequest, hr, he, hc, firstChoice]⟩

/-- C7, witness: when the connection fails, the history is the prior history followed by
the user turn. -/
theorem Completions_failure_history_witness :
    ((∀ body r, (fun _ => Transport.doError "timeout" : Request → Transport)
            (newRequest "k" ([⟨"user", "a"⟩] ++ [⟨"user", "again"⟩])) = Transport.body body →
          unmarshalResponseBody body = Except.ok r → r.Choices = []) ∧
        (Completions (some "k") (fun _ => Transport.doError "timeout") [⟨"user", "a"⟩]
          "again").messages = [⟨"user", "a"⟩] ++ [⟨"user", "again"⟩]) ∨
      (∃ body r c cs, (fun _ => Transport.doError "timeout" : Request → Transport)
          (newRequest "k" ([⟨"user", "a"⟩] ++ [⟨"user", "again"⟩])) = Transport.body body ∧
        unmarshalResponseBody body = Except.ok r ∧ r.Choices = c :: cs ∧
        unmarshalErrorBody body = Except.error (Err.connection "timeout") ∧
        (Completions (some "k") (fun _ => Transport.doError "timeout") [⟨"user", "a"⟩]
          "again").messages = [⟨"user", "a"⟩] ++ [⟨"user", "again"⟩, c.Message]) :=
  Completions_failure_history "k" (fun _ => Transport.doError "timeout") [⟨"user", "a"⟩]
    "again" (Err.connection "timeout") (by decide) (by decide)

/-- C8, as stated, fails: for the body
`{"choices":[{"message":{"role":"user","content":"x"}}]}` the call returns the reply "x"
and the turn appended after the user turn has the role "user", so the call has added two
user turns and no assistant turn. -/
theorem Completions_appends_provider_role :
    Completions (some "k") (fun _ => Transport.body (bodyUserRoleChoice "x")) [] "hi"
        = ⟨Outcome.reply "x", [⟨"user", "hi"⟩, ⟨"user", "x"⟩],
           [newRequest "k" [⟨"user", "hi"⟩]]⟩ ∧
      ((Completions (some "k") (fun _ => Transport.body (bodyUserRoleChoice "x")) []
        "hi").messages.filter (fun m => m.Role == "user")).length = 2 ∧
      ((Completions (some "k") (fun _ => Transport.body (bodyUserRoleChoice "x")) []
        "hi").messages.filter (fun m => m.Role == "assistant")).length = 0 := by
  refine ⟨by decide, by decide, by decide⟩

/-- C8 (amended): a call whose message is not the reset command keeps the prior history as
a prefix of the history afterwards, whatever the outcome; when it returns a reply, the
history is the prior history followed by the user turn and then either nothing or the
message of the first choice of the decoded response, stored with the role the provider gave
it, so the length grows by 1 or 2; and along a sequence of calls without a reset command
the history after any initial part of the sequence is a prefix of the history after the
whole sequence, so its length never decreases. -/
theorem Completions_history_append_only (apiKey : Option String) (net : Request → Transport)
    (messages : List STMessage) (msg : String) (cs1 cs2 : List Call)
    (hmsg : ToLower msg ≠ "/clear")
    (hcs : ∀ c ∈ cs1 ++ cs2, ToLower c.msg ≠ "/clear") :
    messages <+: (Completions apiKey net messages msg).messages ∧
      (∀ s, (Completions apiKey net messages msg).outcome = Outcome.reply s →
        ((Completions apiKey net messages msg).messages = messages ++ [⟨"user", msg⟩] ∨
          ∃ key body r c cs, apiKey = some key ∧
            net (newRequest key (messages ++ [⟨"user", msg⟩])) = Transport.body body ∧
            unmarshalResponseBody body = Except.ok r ∧ r.Choices = c :: cs ∧
            (Completions apiKey net messages msg).messages
              = messages ++ [⟨"user", msg⟩, c.Message]) ∧
        ((Completions apiKey net messages msg).messages.length = messages.length + 1 ∨
          (Completions apiKey net messages msg).messages.length = messages.length + 2)) ∧
      runCalls cs1 messages <+: runCalls (cs1 ++ cs2) messages ∧
      (runCalls cs1 messages).length ≤ (runCalls (cs1 ++ cs2) messages).length := by
  have hseq : runCalls cs1 messages <+: runCalls (cs1 ++ cs2) messages := by
    rw [runCalls_append]
    exact runCalls_extend cs2 _ (fun c hc => hcs c (List.mem_append_right _ hc))
  refine ⟨Completions_messages_extend apiKey net messages msg hmsg, ?_, hseq, hseq.length_le⟩
  intro s hs
  cases apiKey with
  | none => simp [Completions] at hs
  | some key =>
    rcases Completions_messages_cases key net messages msg hmsg with h | ⟨b, r, c, cs, h1, h2, h3, h4⟩
    · exact ⟨Or.inl h, Or.inl (by rw [h]; simp)⟩
    · exact ⟨Or.inr ⟨key, b, r, c, cs, rfl, h1, h2, h3, h4⟩, Or.inr (by rw [h4]; simp)⟩

/-- C8, witness: a call answered with "Hello" followed by a call that finds the connection
down. -/
theorem Completions_history_append_only_witness :
    [(⟨"user", "a"⟩ : STMessage)] <+:
        (Completions callHello.apiKey callHello.net [⟨"user", "a"⟩] "hi").messages ∧
      (∀ s, (Completions callHello.apiKey callHello.net [⟨"user", "a"⟩] "hi").outcome
          = Outcome.reply s →
        ((Completions callHello.apiKey callHello.net [⟨"user", "a"⟩] "hi").messages
            = [⟨"user", "a"⟩] ++ [⟨"user", "hi"⟩] ∨
          ∃ key body r c cs, callHello.apiKey = some key ∧
            callHello.net (newRequest key ([⟨"user", "a"⟩] ++ [⟨"user", "hi"⟩]))
              = Transport.body body ∧
            unmarshalResponseBody body = Except.ok r ∧ r.Choices = c :: cs ∧
            (Completions callHello.apiKey callHello.net [⟨"user", "a"⟩] "hi").messages
              = [⟨"user", "a"⟩] ++ [⟨"user", "hi"⟩, c.Message]) ∧
        ((Completions callHello.apiKey callHello.net [⟨"user", "a"⟩] "hi").messages.length
            = [(⟨"user", "a"⟩ : STMessage)].length + 1 ∨
          (Completions callHello.apiKey callHello.net [⟨"user", "a"⟩] "hi").messages.length
            = [(⟨"user", "a"⟩ : STMessage)].length + 2)) ∧
      runCalls [callHello] [⟨"user", "a"⟩]
        <+: runCalls ([callHello] ++ [callOffline]) [⟨"user", "a"⟩] ∧
      (runCalls [callHello] [⟨"user", "a"⟩]).length
        ≤ (runCalls ([callHello] ++ [callOffline]) [⟨"user", "a"⟩]).length :=
  Completions_history_append_only callHello.apiKey callHello.net [⟨"user", "a"⟩] "hi"
    [callHello] [callOffline] (by decide)
    (by
      intro c hc
      simp only [List.singleton_append, List.mem_cons, List.mem_singleton, List.not_mem_nil,
        or_false] at hc
      rcases hc with rfl | rfl <;> decide)

/-- C9, as stated, fails: when the server answers the POST with a 307 redirect, the default
client sends the POST again to the new location, so one call of `Completions` (which still
returns the reply "Hello" and has called `client.Do` once) puts two POSTs on the wire. -/
theorem Completions_two_posts_on_redirect :
    postsOnWire (some "k") serverRedirect [] "hi"
        = [⟨"POST", "https://api.openai.com/v1/chat/completions",
            some ⟨"gpt-3.5-turbo", [⟨"user", "hi"⟩]⟩⟩,
           ⟨"POST", "https://eu.api.openai.com/v1/chat/completions",
            some ⟨"gpt-3.5-turbo", [⟨"user", "hi"⟩]⟩⟩] ∧
      (Completions (some "k") (viaClient serverRedirect) [] "hi").outcome
        = Outcome.reply "Hello" ∧
      (Completions (some "k") (viaClient serverRedirect) [] "hi").requests.length = 1 := by
  refine ⟨by decide, by decide, by decide⟩

/-- C9 (amended): with a credential, a message whose lower-cased form is not "/clear" leads
to exactly one request handed to the HTTP client, a POST to the chat-completions endpoint
with the JSON content type and the bearer token, whose payload has the model "gpt-3.5-turbo"
and as messages the prior history followed by the user turn with the message as given; and
when the server does not answer that request with a redirect, it is the only POST put on
the wire during the call. -/
theorem Completions_request (key : String) (net : Request → Transport)
    (server : WireRequest → WireReply) (t : Transport)
    (messages : List STMessage) (msg : String) (hmsg : ToLower msg ≠ "/clear")
    (hdone : server ⟨"POST", "https://api.openai.com/v1/chat/completions",
      some ⟨"gpt-3.5-turbo", messages ++ [⟨"user", msg⟩]⟩⟩ = WireReply.done t) :
    (Completions (some key) net messages msg).requests
        = [⟨"POST", "https://api.openai.com/v1/chat/completions", "application/json",
            "Bearer " ++ key, ⟨"gpt-3.5-turbo", messages ++ [⟨"user", msg⟩]⟩⟩] ∧
      postsOnWire (some key) server messages msg
        = [⟨"POST", "https://api.openai.com/v1/chat/completions",
            some ⟨"gpt-3.5-turbo", messages ++ [⟨"user", msg⟩]⟩⟩] := by
  refine ⟨Completions_requests key net messages msg hmsg, ?_⟩
  have hc : clientDo server 10 (toWire (newRequest key (messages ++ [⟨"user", msg⟩])))
      = (t, [toWire (newRequest key (messages ++ [⟨"user", msg⟩]))]) := by
    show clientDo server (9 + 1) _ = _
    unfold clientDo
    have hd : server (toWire (newRequest key (messages ++ [⟨"user", msg⟩])))
        = WireReply.done t := hdone
    rw [hd]
  unfold postsOnWire
  rw [Completions_requests key (viaClient server) messages msg hmsg]
  simp only [List.flatMap_cons, List.flatMap_nil, List.append_nil, hc]
  rfl

/-- C9, witness: the message " /Clear" (padded with a blank) is sent as a user turn,
untrimmed and with its capital letter, in a single POST when the server answers with a
body. -/
theorem Completions_request_witness :
    ToLower " /Clear" ≠ "/clear" ∧
      (Completions (some "k") (fun _ => Transport.doError "timeout")
          [⟨"user", "a"⟩, ⟨"assistant", "b"⟩] " /Clear").requests
        = [⟨"POST", "https://api.openai.com/v1/chat/completions", "application/json",
            "Bearer " ++ "k",
            ⟨"gpt-3.5-turbo", [⟨"user", "a"⟩, ⟨"assistant", "b"⟩] ++ [⟨"user", " /Clear"⟩]⟩⟩] ∧
      postsOnWire (some "k") (fun _ => WireReply.done (Transport.body (bodyOneChoice "Hello")))
          [⟨"user", "a"⟩, ⟨"assistant", "b"⟩] " /Clear"
        = [⟨"POST", "https://api.openai.com/v1/chat/completions",
            some ⟨"gpt-3.5-turbo",
              [⟨"user", "a"⟩, ⟨"assistant", "b"⟩] ++ [⟨"user", " /Clear"⟩]⟩⟩] :=
  ⟨by decide, Completions_request "k" (fun _ => Transport.doError "timeout")
    (fun _ => WireReply.done (Transport.body (bodyOneChoice "Hello")))
    (Transport.body (bodyOneChoice "Hello"))
    [⟨"user", "a"⟩, ⟨"assistant", "b"⟩] " /Clear" (by decide) rfl⟩

/-- C10: without a credential the history after the call is the history before it, for
every message, the reset command included. -/
theorem Completions_no_key_keeps_history (net : Request → Transport)
    (messages : List STMessage) (msg : String) :
    (Completions none net messages msg).messages = messages :=
  rfl

end openai
